import Mathlib

/-!
gotftp: a shallow embedding of the TFTP packet codec, the option handling
and the per-peer transfer loops of this repository, with theorems checking
the specification's claims against the code.

Bytes are modelled as Nat values and byte strings as List Nat. The Go
functions of protocol.go, peer.go, the server session code and client.go
are translated into executable Lean definitions; machine-integer
conversions are made explicit as reductions modulo 2^16 or 2^32.
-/

namespace Gotftp

/-- ASCII bytes of the mode string octet. -/
def octetBytes : List Nat := [111, 99, 116, 101, 116]

/-- ASCII bytes of the mode string netascii. -/
def netasciiBytes : List Nat := [110, 101, 116, 97, 115, 99, 105, 105]

/-- ASCII bytes of the option name blksize. -/
def blksizeBytes : List Nat := [98, 108, 107, 115, 105, 122, 101]

/-- ASCII bytes of the option name timeout. -/
def timeoutNameBytes : List Nat := [116, 105, 109, 101, 111, 117, 116]

/-- ASCII bytes of the option name tsize. -/
def tsizeBytes : List Nat := [116, 115, 105, 122, 101]

/-- bytes.Buffer.ReadString(0): the bytes before the first NUL together with
the rest of the buffer; none when no NUL is present, in which case the Go
call reports io.EOF and every caller fails. -/
def readString0 : List Nat → Option (List Nat × List Nat)
  | [] => none
  | b :: rest =>
    if b = 0 then some ([], rest)
    else
      match readString0 rest with
      | none => none
      | some (s, r) => some (b :: s, r)

/-- binary.Read of a big-endian uint16: the value and the remaining bytes;
none when fewer than two bytes remain. -/
def readU16 : List Nat → Option (Nat × List Nat)
  | b0 :: b1 :: rest => some (b0 * 256 + b1, rest)
  | _ => none

/-- binary.Read of a big-endian uint32. -/
def readU32 : List Nat → Option (Nat × List Nat)
  | b0 :: b1 :: b2 :: b3 :: rest =>
    some (((b0 * 256 + b1) * 256 + b2) * 256 + b3, rest)
  | _ => none

/-- binary.Write of a big-endian uint16. -/
def be16 (n : Nat) : List Nat := [n / 256 % 256, n % 256]

/-- binary.Write of a big-endian uint32. -/
def be32 (n : Nat) : List Nat :=
  [n / 16777216 % 256, n / 65536 % 256, n / 256 % 256, n % 256]

/-- Decimal digit run to Nat, accumulator style; none on a non-digit. -/
def digitsToNatAux (acc : Nat) : List Nat → Option Nat
  | [] => some acc
  | d :: rest =>
    if 48 ≤ d ∧ d ≤ 57 then digitsToNatAux (acc * 10 + (d - 48)) rest else none

/-- Nonempty decimal digit run to Nat. -/
def digitsToNat : List Nat → Option Nat
  | [] => none
  | l => digitsToNatAux 0 l

/-- strconv.Atoi: an optional sign, then decimal digits, with the 64-bit
range check of the Go int type. -/
def atoi (s : List Nat) : Option Int :=
  let signed : Option Int :=
    match s with
    | 43 :: rest => (digitsToNat rest).map (fun n => (n : Int))
    | 45 :: rest => (digitsToNat rest).map (fun n => -(n : Int))
    | _ => (digitsToNat s).map (fun n => (n : Int))
  match signed with
  | none => none
  | some v =>
    if v < -(9223372036854775808 : Int) ∨ (9223372036854775807 : Int) < v then none
    else some v

/-- The Go conversion uint16(x) applied to an int x: reduction modulo 2^16
with a nonnegative result. -/
def uint16OfInt (v : Int) : Nat := (v % 65536).toNat

instance {ε α : Type} [DecidableEq ε] [DecidableEq α] : DecidableEq (Except ε α) := fun x y =>
  match x, y with
  | Except.ok a, Except.ok b =>
    if h : a = b then Decidable.isTrue (congrArg Except.ok h)
    else Decidable.isFalse (fun he => h (Except.ok.inj he))
  | Except.error a, Except.error b =>
    if h : a = b then Decidable.isTrue (congrArg Except.error h)
    else Decidable.isFalse (fun he => h (Except.error.inj he))
  | Except.ok _, Except.error _ => Decidable.isFalse (fun he => Except.noConfusion he)
  | Except.error _, Except.ok _ => Decidable.isFalse (fun he => Except.noConfusion he)

/-- rwPacket (protocol.go): an RRQ or WRQ with its recognized option fields.
The Go field timeout is a time.Duration of whole seconds; timeoutSec holds
that number of seconds. The defaults are the Go zero values of the fields. -/
structure RWPacket where
  opcode : Nat
  fileName : List Nat := []
  transferMode : List Nat := []
  hasOption : Bool := false
  hasBlockSize : Bool := false
  blockSize : Nat := 0
  hasTransferSize : Bool := false
  transferSize : Int := 0
  hasTimeout : Bool := false
  timeoutSec : Int := 0
deriving Repr, DecidableEq

/-- The error values of protocol.go that the claims distinguish. eof stands
for the io read errors of bytes.Buffer, atoiErr for a strconv.Atoi failure,
tsizeTooBig for the transferSize error of applyTransferSizeOpt. -/
inductive GoErr where
  | invalidReq
  | eof
  | blockSizeOpt
  | timeoutOpt
  | atoiErr
  | tsizeTooBig
deriving Repr, DecidableEq

/-- The blksize arm of rwPacket.Read (protocol.go): a value below 8 is the
blocksize option error, a value above 65464 is clamped down to 65464, and
the result is stored through the lossless uint16 conversion. -/
def readBlockSizeOptValue (size : Int) : Except GoErr Nat :=
  if size < 8 then Except.error GoErr.blockSizeOpt
  else if size > 65464 then Except.ok 65464
  else Except.ok size.toNat

/-- The timeout arm of rwPacket.Read (protocol.go): the parsed int is
converted to uint16 before it is compared with the [1, 255] bounds, and the
original int is what gets stored as the timeout in seconds. -/
def readTimeoutOptValue (timeout : Int) : Except GoErr Int :=
  if uint16OfInt timeout < 1 ∨ 255 < uint16OfInt timeout then Except.error GoErr.timeoutOpt
  else Except.ok timeout

/-- The option loop of rwPacket.Read (protocol.go). The fuel argument only
forces termination; the wrapper passes the buffer length, which bounds the
number of iterations because every iteration consumes at least two bytes,
so the zero-fuel arm is never taken on a call from readOptions. Note the
loop assigns hasBlockSize, hasTimeout and hasTransferSize but never the
hasOption field, exactly as the source does. -/
def readOptionsFuel (fuel : Nat) (p : RWPacket) (bytes : List Nat) : Except GoErr RWPacket :=
  if bytes = [] then Except.ok p
  else
    match fuel with
    | 0 => Except.error GoErr.eof
    | fuel + 1 =>
      match readString0 bytes with
      | none => Except.error GoErr.eof
      | some (optionName, rest1) =>
        match readString0 rest1 with
        | none => Except.error GoErr.eof
        | some (value, rest2) =>
          if optionName = blksizeBytes then
            match atoi value with
            | none => Except.error GoErr.atoiErr
            | some v =>
              match readBlockSizeOptValue v with
              | Except.error e => Except.error e
              | Except.ok bs =>
                readOptionsFuel fuel { p with blockSize := bs, hasBlockSize := true } rest2
          else if optionName = timeoutNameBytes then
            match atoi value with
            | none => Except.error GoErr.atoiErr
            | some v =>
              match readTimeoutOptValue v with
              | Except.error e => Except.error e
              | Except.ok t =>
                readOptionsFuel fuel { p with timeoutSec := t, hasTimeout := true } rest2
          else if optionName = tsizeBytes then
            match atoi value with
            | none => Except.error GoErr.atoiErr
            | some v =>
              readOptionsFuel fuel { p with transferSize := v, hasTransferSize := true } rest2
          else readOptionsFuel fuel p rest2

/-- The option loop of rwPacket.Read, entered with enough fuel. -/
def readOptions (p : RWPacket) (bytes : List Nat) : Except GoErr RWPacket :=
  readOptionsFuel bytes.length p bytes

/-- rwPacket.Read (protocol.go): filename, mode, then the option loop. -/
def rwPacketRead (opcode : Nat) (body : List Nat) : Except GoErr RWPacket :=
  match readString0 body with
  | none => Except.error GoErr.eof
  | some (fn, rest1) =>
    match readString0 rest1 with
    | none => Except.error GoErr.eof
    | some (mode, rest2) =>
      readOptions { opcode := opcode, fileName := fn, transferMode := mode } rest2

/-- The six wire packets of protocol.go. The error code is a uint32 in the
source (a Nat below 2^32 here); block ids are uint16 values. -/
inductive Packet where
  | rw (p : RWPacket)
  | dataPkt (blockID : Nat) (payload : List Nat)
  | ack (blockID : Nat)
  | oack (options : List (List Nat × List Nat))
  | errPkt (code : Nat) (msg : List Nat)
deriving Repr, DecidableEq

/-- oackPacket.Read (protocol.go); fuel as in readOptionsFuel. -/
def oackReadFuel (fuel : Nat) (acc : List (List Nat × List Nat)) (bytes : List Nat) :
    Except GoErr (List (List Nat × List Nat)) :=
  if bytes = [] then Except.ok acc
  else
    match fuel with
    | 0 => Except.error GoErr.eof
    | fuel + 1 =>
      match readString0 bytes with
      | none => Except.error GoErr.eof
      | some (name, rest1) =>
        match readString0 rest1 with
        | none => Except.error GoErr.eof
        | some (value, rest2) => oackReadFuel fuel (acc ++ [(name, value)]) rest2

/-- oackPacket.Read entered with enough fuel. -/
def oackRead (bytes : List Nat) : Except GoErr (List (List Nat × List Nat)) :=
  oackReadFuel bytes.length [] bytes

/-- getRequestPacket (protocol.go). The result mirrors the Go pair
(packet, err). Note the RRQ arm: when the filename or mode check fails it
executes return nil, err at a point where err is nil, so the pair
(none, none) comes back, whereas the parallel WRQ arm returns the
errInvalidReq error. -/
def getRequestPacket (data : List Nat) : Option Packet × Option GoErr :=
  if data.length < 2 then (none, some GoErr.invalidReq)
  else
    match readU16 data with
    | none => (none, some GoErr.eof)
    | some (opcode, body) =>
      if opcode = 1 then
        match rwPacketRead 1 body with
        | Except.error e => (none, some e)
        | Except.ok p =>
          if p.fileName.length = 0 ∨ p.transferMode.length = 0 ∨
              (p.transferMode ≠ netasciiBytes ∧ p.transferMode ≠ octetBytes) then
            (none, none)
          else (some (Packet.rw p), none)
      else if opcode = 2 then
        match rwPacketRead 2 body with
        | Except.error e => (none, some e)
        | Except.ok p =>
          if p.fileName.length = 0 ∨ p.transferMode.length = 0 ∨
              (p.transferMode ≠ netasciiBytes ∧ p.transferMode ≠ octetBytes) then
            (none, some GoErr.invalidReq)
          else (some (Packet.rw p), none)
      else if opcode = 3 then
        match readU16 body with
        | none => (none, some GoErr.eof)
        | some (blockID, payload) => (some (Packet.dataPkt blockID payload), none)
      else if opcode = 4 then
        match readU16 body with
        | none => (none, some GoErr.eof)
        | some (blockID, _) => (some (Packet.ack blockID), none)
      else if opcode = 6 then
        match oackRead body with
        | Except.error e => (none, some e)
        | Except.ok opts => (some (Packet.oack opts), none)
      else if opcode = 5 then
        match readU32 body with
        | none => (none, some GoErr.eof)
        | some (code, rest) =>
          match readString0 rest with
          | none => (none, some GoErr.eof)
          | some (msg, _) => (some (Packet.errPkt code msg), none)
      else (none, some GoErr.invalidReq)

/-- rwPacket.Write (protocol.go): opcode, filename, NUL, mode, NUL. No
option field is written, whatever the option flags say. -/
def rwPacketWrite (p : RWPacket) : List Nat :=
  be16 p.opcode ++ p.fileName ++ [0] ++ p.transferMode ++ [0]

/-- dataPacket.Write (protocol.go). -/
def dataPacketWrite (blockID : Nat) (payload : List Nat) : List Nat :=
  be16 3 ++ be16 blockID ++ payload

/-- ackPacket.Write (protocol.go). -/
def ackPacketWrite (blockID : Nat) : List Nat := be16 4 ++ be16 blockID

/-- The option list part of oackPacket.Write. -/
def oackOptionsWrite : List (List Nat × List Nat) → List Nat
  | [] => []
  | o :: rest => o.1 ++ [0] ++ o.2 ++ [0] ++ oackOptionsWrite rest

/-- oackPacket.Write (protocol.go). -/
def oackPacketWrite (options : List (List Nat × List Nat)) : List Nat :=
  be16 6 ++ oackOptionsWrite options

/-- errorPacket.Write (protocol.go): the code field is a uint32, so four
code bytes go on the wire between the opcode and the message. -/
def errorPacketWrite (code : Nat) (msg : List Nat) : List Nat :=
  be16 5 ++ be32 code ++ msg ++ [0]

/-- packet.Write dispatched over the six kinds, as packetReq does. -/
def packetWrite : Packet → List Nat
  | Packet.rw p => rwPacketWrite p
  | Packet.dataPkt id payload => dataPacketWrite id payload
  | Packet.ack id => ackPacketWrite id
  | Packet.oack opts => oackPacketWrite opts
  | Packet.errPkt code msg => errorPacketWrite code msg

/-- applyBlockSizeOpt (server session code): the negotiated block size is
the requested one when below the 512-byte default, else 512; the OACK entry
value is strconv.Itoa of the result, kept here as the number itself. -/
def applyBlockSizeOpt (req : RWPacket) : Option Nat :=
  if req.hasBlockSize then some (if req.blockSize < 512 then req.blockSize else 512) else none

/-- applyTimeoutOpt (server session code): the request's timeout in seconds
becomes both socket deadlines and the OACK entry value. -/
def applyTimeoutOpt (req : RWPacket) : Option Int :=
  if req.hasTimeout then some req.timeoutSec else none

/-- applyTransferSizeOpt (server session code): a requested tsize of 0 is
answered with the file size; a size above 512 * 65535 is an error. -/
def applyTransferSizeOpt (fileSize : Int) (req : RWPacket) : Except GoErr (Option Int) :=
  if req.hasTransferSize then
    if req.transferSize = 0 then Except.ok (some fileSize)
    else if req.transferSize > 512 * 65535 then Except.error GoErr.tsizeTooBig
    else Except.ok (some req.transferSize)
  else Except.ok none

/-- applyOptions (server session code): blksize, timeout, tsize appliers run
in that order and each appends at most one OACK entry; entry values are
numeric (the wire carries their Itoa strings). -/
def applyOptionsNumeric (fileSize : Int) (req : RWPacket) :
    Except GoErr (List (List Nat × Int)) :=
  let l1 : List (List Nat × Int) :=
    match applyBlockSizeOpt req with
    | some bs => [(blksizeBytes, (bs : Int))]
    | none => []
  let l2 : List (List Nat × Int) :=
    match applyTimeoutOpt req with
    | some t => [(timeoutNameBytes, t)]
    | none => []
  match applyTransferSizeOpt fileSize req with
  | Except.error e => Except.error e
  | Except.ok (some ts) => Except.ok (l1 ++ l2 ++ [(tsizeBytes, ts)])
  | Except.ok none => Except.ok (l1 ++ l2)

/-- The actions handleRRQNegotiation can take, keyed on the hasOption flag
of the decoded request: with options it applies them, sends the OACK and
waits for ACK(0); without options it skips straight to the data loop. -/
inductive NegotiationAction where
  | skip
  | oackThenAwaitAck0 (opts : List (List Nat × Int))
  | fail (e : GoErr)
deriving Repr, DecidableEq

/-- handleRRQNegotiation (server session code). -/
def handleRRQNegotiationAction (fileSize : Int) (req : RWPacket) : NegotiationAction :=
  if req.hasOption then
    match applyOptionsNumeric fileSize req with
    | Except.ok opts => NegotiationAction.oackThenAwaitAck0 opts
    | Except.error e => NegotiationAction.fail e
  else NegotiationAction.skip

/-- The actions handleWRQNegotiation can take: with options it sends the
OACK, without options it sends ACK(0). -/
inductive WRQNegotiationAction where
  | sendAck0
  | sendOack (opts : List (List Nat × Int))
  | fail (e : GoErr)
deriving Repr, DecidableEq

/-- handleWRQNegotiation (server session code). -/
def handleWRQNegotiationAction (fileSize : Int) (req : RWPacket) : WRQNegotiationAction :=
  if req.hasOption then
    match applyOptionsNumeric fileSize req with
    | Except.ok opts => WRQNegotiationAction.sendOack opts
    | Except.error e => WRQNegotiationAction.fail e
  else WRQNegotiationAction.sendAck0

/-- The blksize value echoed in the server's OACK for a submitted integer v:
the decode-time check and clamp of rwPacket.Read composed with
applyBlockSizeOpt of the session. -/
def rrqOackBlockSize (v : Int) : Except GoErr Nat :=
  match readBlockSizeOptValue v with
  | Except.error e => Except.error e
  | Except.ok bs =>
    match applyBlockSizeOpt { opcode := 1, hasBlockSize := true, blockSize := bs } with
    | some n => Except.ok n
    | none => Except.error GoErr.invalidReq

/-- One receive attempt on a session socket: a packet arrived, or the read
deadline expired (the timeout branch of the net error). -/
inductive RecvOutcome where
  | timeout
  | pkt (p : Packet)
deriving Repr, DecidableEq

/-- The loop state of handleWRQ: the expected block id, the negotiated
block size, the running transfer size, the final-ACK flag. -/
structure WRQState where
  blockID : Nat
  blockSize : Nat
  transferSize : Nat
  finalACK : Bool
deriving Repr, DecidableEq

/-- The processor closure handleWRQ hands to processResponse: the goon
flag, the updated state, and the payloads written to the stream. A DATA
packet whose block id differs from the expected one returns goon with no
write; the matching DATA is written, updates the final flag when short and
finishes the wait. -/
def wrqProcessor (st : WRQState) : Packet → Bool × WRQState × List (List Nat)
  | Packet.dataPkt id payload =>
    if id ≠ st.blockID then (true, st, [])
    else
      (false,
        { st with
          finalACK := if payload.length < st.blockSize then true else st.finalACK,
          transferSize := st.transferSize + payload.length },
        [payload])
  | _ => (true, st, [])

/-- How a processResponse wait can end over a finite event list. -/
inductive AwaitResult where
  | failed
  | finished (st : WRQState)
  | pending (st : WRQState)
deriving Repr, DecidableEq

/-- processResponse (protocol.go) driving wrqProcessor: a read error
(timeout included) returns at once, a received ERROR packet returns at
once, otherwise the processor runs until it reports goon = false. The
first component collects the payloads written along the way. -/
def wrqAwaitData (st : WRQState) : List RecvOutcome → List (List Nat) × AwaitResult
  | [] => ([], AwaitResult.pending st)
  | RecvOutcome.timeout :: _ => ([], AwaitResult.failed)
  | RecvOutcome.pkt (Packet.errPkt _ _) :: _ => ([], AwaitResult.failed)
  | RecvOutcome.pkt p :: rest =>
    match wrqProcessor st p with
    | (false, st1, ws) => (ws, AwaitResult.finished st1)
    | (true, st1, ws) => (ws ++ (wrqAwaitData st1 rest).1, (wrqAwaitData st1 rest).2)

/-- Observable events of one WRQ round. -/
inductive WRQEvent where
  | wrote (payload : List Nat)
  | sentAck (id : Nat)
deriving Repr, DecidableEq

/-- One round of the handleWRQ loop: await the expected DATA through
processResponse, then send the ACK carrying the current block id. No ACK
is sent unless the wait finished on the matching DATA. -/
def wrqRound (st : WRQState) (events : List RecvOutcome) : List WRQEvent × Option WRQState :=
  match wrqAwaitData st events with
  | (ws, AwaitResult.finished st1) =>
    (ws.map WRQEvent.wrote ++ [WRQEvent.sentAck st1.blockID], some st1)
  | (ws, _) => (ws.map WRQEvent.wrote, none)

/-- Events of the RRQ data loop of handleRRQ: a DATA sent, an ACK observed. -/
inductive RRQEv where
  | dq (id : Nat) (payload : List Nat)
  | ackRecv (id : Nat)
deriving Repr, DecidableEq

/-- The data loop of handleRRQ on a successful transfer: each Read returns
the next min(B, remaining) bytes of the stream (the os.File behaviour),
every awaited ACK arrives with the matching id, and the loop breaks after
the first chunk strictly shorter than B. Block ids are Nats: the uint16
wrap beyond 65535 blocks is outside the spec, which caps transfers at
65535 blocks. The B = 0 arm is unreachable, since the negotiated block
size is always at least 8. -/
def rrqTrace (B : Nat) (blockID : Nat) (content : List Nat) : List RRQEv :=
  if h1 : content.length < B then [RRQEv.dq blockID content, RRQEv.ackRecv blockID]
  else if h2 : B = 0 then []
  else
    RRQEv.dq blockID (content.take B) :: RRQEv.ackRecv blockID ::
      rrqTrace B (blockID + 1) (content.drop B)
termination_by content.length
decreasing_by
  simp only [List.length_drop]
  omega

/-- Observable events of the Client.Get receive loop. -/
inductive GetEv where
  | wroteAt (off : Nat) (payload : List Nat)
  | sentAck (id : Nat)
deriving Repr, DecidableEq

/-- How the Client.Get loop ends over a finite event list. -/
inductive GetOutcome where
  | done
  | errTimeout
  | errPeer
  | pending
deriving Repr, DecidableEq

/-- The receive loop of Client.Get (client.go). budget is c.retryTime, rc
the running retryTime counter, writeOk tells whether writer.WriteAt
succeeds at an offset. A timeout within budget re-enters the loop and
sends nothing; a received packet resets the counter; a DATA packet is
written at int64(blockID-1)*512 (uint16 arithmetic on blockID-1, hence the
modulus) and acknowledged exactly when the write succeeds; the loop breaks
exactly when the payload is shorter than 512 bytes, write success or not.
wroteAt records the attempted write. -/
def clientGetLoop (budget : Nat) (writeOk : Nat → List Nat → Bool) :
    Nat → List RecvOutcome → List GetEv × GetOutcome
  | _, [] => ([], GetOutcome.pending)
  | rc, RecvOutcome.timeout :: rest =>
    if rc < budget then clientGetLoop budget writeOk (rc + 1) rest
    else ([], GetOutcome.errTimeout)
  | _, RecvOutcome.pkt (Packet.dataPkt blockID payload) :: rest =>
    let off := (blockID + 65535) % 65536 * 512
    let evs := GetEv.wroteAt off payload ::
      (if writeOk off payload then [GetEv.sentAck blockID] else [])
    if payload.length < 512 then (evs, GetOutcome.done)
    else
      (evs ++ (clientGetLoop budget writeOk 0 rest).1, (clientGetLoop budget writeOk 0 rest).2)
  | _, RecvOutcome.pkt (Packet.errPkt _ _) :: _ => ([], GetOutcome.errPeer)
  | _, RecvOutcome.pkt _ :: rest => clientGetLoop budget writeOk 0 rest

/-- Wire bytes of an RRQ for file f in octet mode carrying the option
blksize = 1024. -/
def rrqBlksizeReqBytes : List Nat :=
  [0, 1] ++ [102, 0] ++ octetBytes ++ [0] ++ blksizeBytes ++ [0] ++ [49, 48, 50, 52, 0]

/-- The rwPacket that decoding rrqBlksizeReqBytes produces. -/
def rrqBlksizeReqPacket : RWPacket :=
  { opcode := 1, fileName := [102], transferMode := octetBytes,
    hasBlockSize := true, blockSize := 1024 }

/-- Wire bytes of an RRQ with an empty filename in octet mode. -/
def rrqEmptyNameBytes : List Nat := [0, 1, 0] ++ octetBytes ++ [0]

/-- Wire bytes of a WRQ with an empty filename in octet mode. -/
def wrqEmptyNameBytes : List Nat := [0, 2, 0] ++ octetBytes ++ [0]

/-- A byte string with no NUL byte survives the trailing-NUL framing. -/
def noNul (s : List Nat) : Prop := ¬ 0 ∈ s

instance (s : List Nat) : Decidable (noNul s) := by
  unfold noNul
  infer_instance

/-- Valid field population for the round-trip law, exactly the shape the
encoder can transport: ids fit in 16 bits, the error code in 32 bits,
strings are NUL-free, a request has a nonempty filename, a literal octet or
netascii mode, and no options (the Go zero values in every option field),
since rwPacket.Write emits no options. -/
def validPacket : Packet → Prop
  | Packet.rw p =>
    (p.opcode = 1 ∨ p.opcode = 2) ∧ p.fileName ≠ [] ∧ noNul p.fileName ∧
      (p.transferMode = octetBytes ∨ p.transferMode = netasciiBytes) ∧
      p.hasOption = false ∧ p.hasBlockSize = false ∧ p.blockSize = 0 ∧
      p.hasTimeout = false ∧ p.timeoutSec = 0 ∧ p.hasTransferSize = false ∧
      p.transferSize = 0
  | Packet.dataPkt id _ => id < 65536
  | Packet.ack id => id < 65536
  | Packet.oack opts => ∀ o ∈ opts, noNul o.1 ∧ noNul o.2
  | Packet.errPkt code msg => code < 4294967296 ∧ noNul msg

instance (p : Packet) : Decidable (validPacket p) := by
  cases p <;> · unfold validPacket; infer_instance

/-- What clientPeer.run does with an incoming datagram before any transfer
starts. -/
inductive RunAction where
  | sendErrorPkt (e : GoErr)
  | handleReq (p : Packet)
  | noAction
deriving Repr, DecidableEq

/-- The entry of clientPeer.run (server session code): a decode error is
reported to the peer with sendErrorReq; a decoded packet is handled; the
(nil, nil) outcome of getRequestPacket falls through both checks, so the
datagram is silently dropped. -/
def runDispatch (data : List Nat) : RunAction :=
  match getRequestPacket data with
  | (_, some e) => RunAction.sendErrorPkt e
  | (some p, none) => RunAction.handleReq p
  | (none, none) => RunAction.noAction

/-- C1: the spec says an RRQ or WRQ carrying at least one option gets its
options applied, an OACK sent, and (for RRQ) an ACK(0) wait before DATA(1).
The decoder parses the blksize option and sets hasBlockSize, but hasOption
is never assigned anywhere, so both negotiation handlers take the
no-option branch: the RRQ handler skips negotiation entirely and the WRQ
handler answers ACK(0) instead of an OACK. -/
theorem rrq_wrq_option_negotiation_skipped :
    getRequestPacket rrqBlksizeReqBytes = (some (Packet.rw rrqBlksizeReqPacket), none)
    ∧ rrqBlksizeReqPacket.hasBlockSize = true
    ∧ rrqBlksizeReqPacket.hasOption = false
    ∧ handleRRQNegotiationAction 0 rrqBlksizeReqPacket = NegotiationAction.skip
    ∧ handleWRQNegotiationAction 0 rrqBlksizeReqPacket = WRQNegotiationAction.sendAck0 := by
  decide

/-- C4: an RRQ with an empty filename (opcode 1) makes getRequestPacket
return the Go pair (nil, nil) — no packet and no error, because the RRQ arm
returns err at a point where err is nil — while the identical WRQ (opcode
2) correctly returns the invalid-request error, so opcodes 1 and 2 do not
behave alike; as a consequence clientPeer.run silently drops the invalid
RRQ where the invalid WRQ is answered with an ERROR packet. -/
theorem rrq_invalid_request_nil_error :
    getRequestPacket rrqEmptyNameBytes = (none, none)
    ∧ getRequestPacket wrqEmptyNameBytes = (none, some GoErr.invalidReq)
    ∧ runDispatch rrqEmptyNameBytes = RunAction.noAction
    ∧ runDispatch wrqEmptyNameBytes = RunAction.sendErrorPkt GoErr.invalidReq := by
  decide

/-- C8: errorPacket declares its code as uint32, so encoding ERROR(1, "x")
emits four code bytes (eight bytes total instead of the six of the claimed
2-byte format), the standard six-byte ERROR datagram fails to decode (the
message read hits the end of the buffer after four bytes of code were
consumed), while the 4-byte format round-trips internally. -/
theorem error_packet_code_is_four_bytes :
    errorPacketWrite 1 [120] = [0, 5, 0, 0, 0, 1, 120, 0]
    ∧ getRequestPacket [0, 5, 0, 1, 120, 0] = (none, some GoErr.eof)
    ∧ getRequestPacket (errorPacketWrite 1 [120]) = (some (Packet.errPkt 1 [120]), none) := by
  decide

/-- C9: the timeout option check converts the parsed int to uint16 before
comparing with [1, 255], so 65537 wraps to 1 and is accepted (and the
session timeout becomes 65537 seconds), while the plain out-of-range and
boundary values behave as the claim says. -/
theorem timeout_opt_uint16_wraparound :
    readTimeoutOptValue 65537 = Except.ok 65537
    ∧ readTimeoutOptValue 256 = Except.error GoErr.timeoutOpt
    ∧ readTimeoutOptValue 255 = Except.ok 255
    ∧ readTimeoutOptValue 1 = Except.ok 1
    ∧ readTimeoutOptValue 0 = Except.error GoErr.timeoutOpt := by
  decide

/-- C2 as stated fails: a submitted blksize of 1024 is echoed as 512, not
min(max(1024, 8), 65464) = 1024, because applyBlockSizeOpt caps the value
at the 512-byte default. -/
theorem blksize_oack_claim_counterexample :
    rrqOackBlockSize 1024 = Except.ok 512
    ∧ min (max 1024 8) 65464 = 1024
    ∧ ¬ rrqOackBlockSize 1024 = Except.ok (min (max 1024 8) 65464) := by
  decide

/-- C2 amended: for a submitted blksize v with v ≥ 8 the echoed value is
min(v, 512) — the decoder clamps at 65464 and applyBlockSizeOpt then caps
at the 512 default — and v < 8 is rejected with the blocksize option
error, which clientPeer.run reports to the peer as an ERROR packet
(witnessed at the wire level for the RRQ with blksize=4). -/
theorem blksize_oack_amended (v : Int) :
    ((8 ≤ v → rrqOackBlockSize v = Except.ok (min v.toNat 512))
    ∧ (v < 8 → rrqOackBlockSize v = Except.error GoErr.blockSizeOpt))
    ∧ runDispatch
        ([0, 1] ++ [102, 0] ++ octetBytes ++ [0] ++ blksizeBytes ++ [0] ++ [52, 0]) =
      RunAction.sendErrorPkt GoErr.blockSizeOpt := by
  refine ⟨?_, by decide⟩
  constructor
  · intro h
    have h8 : ¬ v < 8 := by omega
    by_cases h1 : v > 65464
    · have hmin : min v.toNat 512 = 512 := by
        rw [Nat.min_def]
        split_ifs <;> omega
      simp [rrqOackBlockSize, readBlockSizeOptValue, applyBlockSizeOpt, h8, h1, hmin]
    · have hmin : min v.toNat 512 = if v.toNat < 512 then v.toNat else 512 := by
        rw [Nat.min_def]
        split_ifs <;> omega
      simp [rrqOackBlockSize, readBlockSizeOptValue, applyBlockSizeOpt, h8, h1, hmin]
  · intro h
    simp [rrqOackBlockSize, readBlockSizeOptValue, h]

theorem blksize_oack_amended_witness :
    (8 ≤ (1024 : Int) ∧ rrqOackBlockSize 1024 = Except.ok (min (Int.toNat 1024) 512))
    ∧ ((7 : Int) < 8 ∧ rrqOackBlockSize 7 = Except.error GoErr.blockSizeOpt) :=
  ⟨⟨by decide, (blksize_oack_amended 1024).1.1 (by decide)⟩,
   ⟨by decide, (blksize_oack_amended 7).1.2 (by decide)⟩⟩

theorem readString0_append (s : List Nat) (h : noNul s) (r : List Nat) :
    readString0 (s ++ 0 :: r) = some (s, r) := by
  induction s with
  | nil => simp [readString0]
  | cons a s ih =>
    unfold noNul at h
    simp only [List.mem_cons, not_or] at h
    obtain ⟨h1, h2⟩ := h
    have ha : ¬ a = 0 := fun e => h1 e.symm
    simp [readString0, ha, ih h2]

theorem readU16_be16 (n : Nat) (rest : List Nat) (h : n < 65536) :
    readU16 (be16 n ++ rest) = some (n, rest) := by
  simp only [be16, List.cons_append, List.nil_append, readU16, Option.some.injEq,
    Prod.mk.injEq]
  exact ⟨by omega, trivial⟩

theorem readU32_be32 (n : Nat) (rest : List Nat) (h : n < 4294967296) :
    readU32 (be32 n ++ rest) = some (n, rest) := by
  simp only [be32, List.cons_append, List.nil_append, readU32, Option.some.injEq,
    Prod.mk.injEq]
  exact ⟨by omega, trivial⟩

theorem oackReadFuel_append (opts : List (List Nat × List Nat)) :
    ∀ (fuel : Nat) (acc : List (List Nat × List Nat)),
      (∀ o ∈ opts, noNul o.1 ∧ noNul o.2) →
      (oackOptionsWrite opts).length ≤ fuel →
      oackReadFuel fuel acc (oackOptionsWrite opts) = Except.ok (acc ++ opts) := by
  induction opts with
  | nil =>
    intro fuel acc _ _
    cases fuel <;> simp [oackOptionsWrite, oackReadFuel]
  | cons o rest ih =>
    intro fuel acc hnul hlen
    have hbytes : oackOptionsWrite (o :: rest) =
        o.1 ++ 0 :: (o.2 ++ 0 :: oackOptionsWrite rest) := by
      simp [oackOptionsWrite]
    rw [hbytes] at hlen ⊢
    have hlen2 : o.1.length + 1 + (o.2.length + 1 + (oackOptionsWrite rest).length) ≤ fuel := by
      simp [List.length_append] at hlen
      omega
    cases fuel with
    | zero => omega
    | succ f =>
      have hne : ¬ (o.1 ++ 0 :: (o.2 ++ 0 :: oackOptionsWrite rest)) = [] := by simp
      have h1 := (hnul o (List.mem_cons_self o rest)).1
      have h2 := (hnul o (List.mem_cons_self o rest)).2
      simp only [oackReadFuel, if_neg hne, readString0_append o.1 h1,
        readString0_append o.2 h2]
      rw [ih f (acc ++ [(o.1, o.2)]) (fun x hx => hnul x (List.mem_cons_of_mem o hx))
        (by omega)]
      simp

theorem rwPacketRead_noopts (op : Nat) (fn mode : List Nat) (hfnN : noNul fn)
    (hmodeN : noNul mode) :
    rwPacketRead op (fn ++ 0 :: (mode ++ [0])) =
      Except.ok { opcode := op, fileName := fn, transferMode := mode } := by
  simp only [rwPacketRead, readString0_append fn hfnN, readString0_append mode hmodeN,
    readOptions, List.length_nil, readOptionsFuel, if_pos rfl]
  simp

theorem getRequestPacket_rw_aux (op : Nat) (fn mode : List Nat)
    (hop : op = 1 ∨ op = 2) (hfn : ¬ fn = []) (hfnN : noNul fn)
    (hmode : mode = octetBytes ∨ mode = netasciiBytes) :
    getRequestPacket (rwPacketWrite { opcode := op, fileName := fn, transferMode := mode }) =
      (some (Packet.rw { opcode := op, fileName := fn, transferMode := mode }), none) := by
  have hmodeN : noNul mode := by rcases hmode with rfl | rfl <;> decide
  have hdata : rwPacketWrite { opcode := op, fileName := fn, transferMode := mode } =
      be16 op ++ (fn ++ 0 :: (mode ++ [0])) := by
    simp [rwPacketWrite]
  have hcond : ¬ (fn.length = 0 ∨ mode.length = 0 ∨
      (mode ≠ netasciiBytes ∧ mode ≠ octetBytes)) := by
    rcases hmode with rfl | rfl <;> simp [octetBytes, netasciiBytes, hfn]
  have hread := rwPacketRead_noopts op fn mode hfnN hmodeN
  rw [hdata]
  have hlen : ¬ (be16 op ++ (fn ++ 0 :: (mode ++ [0]))).length < 2 := by
    simp [be16]
  rcases hop with rfl | rfl
  · rw [getRequestPacket, if_neg hlen, readU16_be16 1 _ (by omega)]
    simp only [hread, hcond]
    simp [hread, hcond]
  · rw [getRequestPacket, if_neg hlen, readU16_be16 2 _ (by omega)]
    simp only [hread, hcond]
    simp [hread, hcond]

/-- C3 as stated fails for a request carrying a recognized option: the
encoder drops the blksize option entirely, so decode of encode comes back
without it — not equal to the original even modulo option reordering and
unknown-option dropping, since blksize is a recognized option. -/
theorem encode_drops_options_counterexample :
    getRequestPacket (packetWrite (Packet.rw rrqBlksizeReqPacket)) =
      (some (Packet.rw { opcode := 1, fileName := [102], transferMode := octetBytes }), none)
    ∧ (getRequestPacket (packetWrite (Packet.rw rrqBlksizeReqPacket))).1 ≠
        some (Packet.rw rrqBlksizeReqPacket) := by
  decide

/-- C3 amended: decode of encode is the identity for DATA, ACK, OACK and
ERROR packets with valid fields and for option-free RRQ/WRQ requests;
rwPacket.Write emits no options, so a request carrying options (recognized
or not) does not round-trip. -/
theorem roundtrip_amended (p : Packet) (h : validPacket p) :
    getRequestPacket (packetWrite p) = (some p, none) := by
  cases p with
  | rw q =>
    obtain ⟨op, fn, mode, ho, hbs, bsz, hts, tsz, hto, tos⟩ := q
    obtain ⟨hop, hfn, hfnN, hmode, h5, h6, h7, h8, h9, h10, h11⟩ := h
    have e5 : ho = false := h5
    have e6 : hbs = false := h6
    have e7 : bsz = 0 := h7
    have e8 : hto = false := h8
    have e9 : tos = 0 := h9
    have e10 : hts = false := h10
    have e11 : tsz = 0 := h11
    subst e5; subst e6; subst e7; subst e8; subst e9; subst e10; subst e11
    have hfn2 : ¬ fn = [] := hfn
    have hmode2 : mode = octetBytes ∨ mode = netasciiBytes := hmode
    have hfnN2 : noNul fn := hfnN
    have hop2 : op = 1 ∨ op = 2 := hop
    exact getRequestPacket_rw_aux op fn mode hop2 hfn2 hfnN2 hmode2
  | dataPkt id payload =>
    have hid : id < 65536 := h
    simp only [packetWrite, dataPacketWrite]
    simp [getRequestPacket, be16, readU16]
    rw [if_neg (by omega)]
    have harith : id / 256 % 256 * 256 + id % 256 = id := by omega
    rw [harith]
  | ack id =>
    have hid : id < 65536 := h
    simp only [packetWrite, ackPacketWrite]
    simp [getRequestPacket, be16, readU16]
    have harith : id / 256 % 256 * 256 + id % 256 = id := by omega
    rw [harith]
  | oack opts =>
    have hnul : ∀ o ∈ opts, noNul o.1 ∧ noNul o.2 := h
    have hread : oackRead (oackOptionsWrite opts) = Except.ok ([] ++ opts) :=
      oackReadFuel_append opts (oackOptionsWrite opts).length [] hnul le_rfl
    simp only [packetWrite, oackPacketWrite]
    simp [getRequestPacket, be16, readU16, oackRead] at hread ⊢
    simp [hread]
  | errPkt code msg =>
    obtain ⟨hcode, hmsg⟩ := h
    simp only [packetWrite, errorPacketWrite]
    simp [getRequestPacket, be16, be32, readU16, readU32, readString0_append msg hmsg]
    rw [if_neg (by omega)]
    have harith :
        ((code / 16777216 % 256 * 256 + code / 65536 % 256) * 256 + code / 256 % 256) * 256 +
          code % 256 = code := by
      omega
    rw [harith]

theorem roundtrip_amended_witness :
    validPacket (Packet.dataPkt 7 [1, 2, 3])
    ∧ getRequestPacket (packetWrite (Packet.dataPkt 7 [1, 2, 3])) =
        (some (Packet.dataPkt 7 [1, 2, 3]), none) :=
  ⟨by decide, roundtrip_amended (Packet.dataPkt 7 [1, 2, 3]) (by decide)⟩

/-- C5: while the WRQ session expects a given block id, a DATA packet with
any other block id is skipped by the processor: nothing is written, no ACK
goes out, and the round continues exactly as if the stale retransmit had
never arrived. -/
theorem wrq_stale_data_ignored (st : WRQState) (b : Nat) (payload : List Nat)
    (events : List RecvOutcome) (h : b ≠ st.blockID) :
    wrqRound st (RecvOutcome.pkt (Packet.dataPkt b payload) :: events) = wrqRound st events := by
  simp [wrqRound, wrqAwaitData, wrqProcessor, h]

theorem wrq_stale_data_ignored_witness :
    (1 ≠ 2)
    ∧ wrqRound (WRQState.mk 2 512 0 false) [RecvOutcome.pkt (Packet.dataPkt 1 [9])] =
        wrqRound (WRQState.mk 2 512 0 false) [] :=
  ⟨by decide, wrq_stale_data_ignored (WRQState.mk 2 512 0 false) 1 [9] [] (by decide)⟩

/-- C7 as stated fails: the WRQ session awaiting DATA(1) aborts on the very
first read timeout — processResponse returns the error at once, consults no
retry budget and retransmits nothing, so even a matching DATA right behind
the timeout is never seen. -/
theorem timeout_abort_counterexample :
    wrqAwaitData (WRQState.mk 1 512 0 false)
        [RecvOutcome.timeout, RecvOutcome.pkt (Packet.dataPkt 1 [7])] =
      ([], AwaitResult.failed) := by
  decide

/-- C7 amended: Client.Get recovers from a read timeout by re-entering the
receive loop without retransmitting anything, for up to budget consecutive
timeouts, and aborts past the budget; sessions driven by processResponse
(the server handlers and the ReadFile/WriteFile client functions) abort on
the first read timeout. -/
theorem timeout_handling_amended (budget rc : Nat) (writeOk : Nat → List Nat → Bool)
    (events : List RecvOutcome) (st : WRQState) :
    (rc < budget →
      clientGetLoop budget writeOk rc (RecvOutcome.timeout :: events) =
        clientGetLoop budget writeOk (rc + 1) events)
    ∧ (¬ rc < budget →
      clientGetLoop budget writeOk rc (RecvOutcome.timeout :: events) =
        ([], GetOutcome.errTimeout))
    ∧ wrqAwaitData st (RecvOutcome.timeout :: events) = ([], AwaitResult.failed) := by
  refine ⟨fun h => ?_, fun h => ?_, ?_⟩
  · simp [clientGetLoop, h]
  · simp [clientGetLoop, h]
  · simp [wrqAwaitData]

theorem timeout_handling_amended_witness :
    ((0 < 3 ∧
      clientGetLoop 3 (fun _ _ => true) 0 [RecvOutcome.timeout] =
        clientGetLoop 3 (fun _ _ => true) 1 [])
    ∧ wrqAwaitData (WRQState.mk 1 512 0 false) [RecvOutcome.timeout] =
        ([], AwaitResult.failed)) :=
  ⟨⟨by decide,
    (timeout_handling_amended 3 0 (fun _ _ => true) [] (WRQState.mk 1 512 0 false)).1
      (by decide)⟩,
   (timeout_handling_amended 3 0 (fun _ _ => true) [] (WRQState.mk 1 512 0 false)).2.2⟩

/-- C10: Client.Get handles every DATA(b) with b ≥ 1 the same way whether
block b was received before or not — the loop keeps no record of received
blocks: the payload write is attempted at offset (b-1)*512, ACK(b) goes out
exactly when the write succeeds, and the loop ends exactly when the payload
is shorter than 512 bytes (write success or not); otherwise it continues
with the retry counter reset, so a retransmitted DATA is re-written and
re-ACKed. -/
theorem client_get_data_step (budget : Nat) (writeOk : Nat → List Nat → Bool) (rc b : Nat)
    (payload : List Nat) (rest : List RecvOutcome) (hb1 : 1 ≤ b) (hb2 : b < 65536) :
    clientGetLoop budget writeOk rc (RecvOutcome.pkt (Packet.dataPkt b payload) :: rest) =
      (if payload.length < 512 then
        (GetEv.wroteAt ((b - 1) * 512) payload ::
          (if writeOk ((b - 1) * 512) payload then [GetEv.sentAck b] else []),
          GetOutcome.done)
      else
        (GetEv.wroteAt ((b - 1) * 512) payload ::
          ((if writeOk ((b - 1) * 512) payload then [GetEv.sentAck b] else []) ++
            (clientGetLoop budget writeOk 0 rest).1),
          (clientGetLoop budget writeOk 0 rest).2)) := by
  have hoff : (b + 65535) % 65536 = b - 1 := by omega
  simp only [clientGetLoop, hoff]
  split_ifs <;> simp

theorem flatMap_map_succ {α : Type} (l : List Nat) (f : Nat → List α) :
    ((l.map Nat.succ).flatMap f) = l.flatMap (fun j => f (j + 1)) := by
  induction l with
  | nil => simp
  | cons a l ih => simp [List.flatMap_cons, ih]

/-- One DATA/ACK pair of the expected RRQ trace. -/
theorem rrqTrace_eq (B : Nat) (hB : 0 < B) :
    ∀ (q : Nat) (content : List Nat) (blockID : Nat), content.length / B = q →
      rrqTrace B blockID content =
        (List.range (q + 1)).flatMap
          (fun j => [RRQEv.dq (blockID + j) ((content.drop (j * B)).take B),
                     RRQEv.ackRecv (blockID + j)]) := by
  intro q
  induction q with
  | zero =>
    intro content blockID hq
    have hlt : content.length < B := by
      by_contra hge
      push_neg at hge
      have h1 : 1 ≤ content.length / B := (Nat.one_le_div_iff hB).2 hge
      omega
    rw [rrqTrace, dif_pos hlt]
    have htake : content.take B = content := List.take_of_length_le (Nat.le_of_lt hlt)
    have h1 : List.range 1 = [0] := rfl
    simp [h1, htake]
  | succ q ih =>
    intro content blockID hq
    have hge : B ≤ content.length := by
      by_contra hlt
      push_neg at hlt
      have : content.length / B = 0 := Nat.div_eq_of_lt hlt
      omega
    have hnlt : ¬ content.length < B := by omega
    have hB0 : ¬ B = 0 := by omega
    have hsub : content.length / B = (content.length - B) / B + 1 :=
      Nat.div_eq_sub_div hB hge
    have hq2 : (content.drop B).length / B = q := by
      rw [List.length_drop]
      rw [hsub] at hq
      exact Nat.add_right_cancel hq
    rw [rrqTrace, dif_neg hnlt, dif_neg hB0, ih (content.drop B) (blockID + 1) hq2,
      List.range_succ_eq_map (q + 1), List.flatMap_cons, flatMap_map_succ]
    simp
    apply congrArg
    funext j
    have h1 : B + j * B = (j + 1) * B := by ring
    have h2 : blockID + 1 + j = blockID + (j + 1) := by ring
    rw [h1, h2]

/-- The DATA packet count of the claim: with r = N mod B, the loop sends
floor(N/B) + 1 packets, which is ceil(N/B) when r is nonzero and
ceil(N/B) + 1 when B divides N. -/
theorem ceil_count_eq (N B : Nat) (hB : 0 < B) :
    N / B + 1 = (N + B - 1) / B + (if B ∣ N then 1 else 0) := by
  rcases Nat.eq_zero_or_pos (N % B) with hr | hr
  · have hdvd : B ∣ N := Nat.dvd_of_mod_eq_zero hr
    rw [if_pos hdvd]
    obtain ⟨q, rfl⟩ := hdvd
    have h1 : B * q + B - 1 = (B - 1) + B * q := by omega
    rw [h1, Nat.add_mul_div_left _ _ hB, Nat.div_eq_of_lt (by omega : B - 1 < B),
      Nat.mul_div_cancel_left q hB, Nat.zero_add]
  · have hdvd : ¬ B ∣ N := by
      intro hd
      have h0 : N % B = 0 := Nat.mod_eq_zero_of_dvd hd
      omega
    rw [if_neg hdvd, Nat.add_zero]
    have h0 : B * (N / B) + N % B = N := Nat.div_add_mod N B
    have hrB : N % B < B := Nat.mod_lt _ hB
    have h1 : N + B - 1 = (N % B - 1) + B * (N / B + 1) := by
      rw [Nat.mul_succ]
      omega
    rw [h1, Nat.add_mul_div_left _ _ hB, Nat.div_eq_of_lt (by omega : N % B - 1 < B),
      Nat.zero_add]

/-- C6: on a successful RRQ transfer of N content bytes with block size B,
the handleRRQ loop emits the DATA packets with block ids 1, 2, ... in
order, each followed by the matching observed ACK; the chunk sent as block
1+j is bytes j*B onward of the stream; the number of DATA packets is
ceil(N/B) plus one exactly when B divides N, in which case the last DATA
payload is empty (the zero-byte file gives the single empty DATA(1)). -/
theorem rrq_block_progression (content : List Nat) (B : Nat) (hB : 0 < B)
    (_hCap : content.length / B + 1 ≤ 65535) :
    rrqTrace B 1 content =
      (List.range (content.length / B + 1)).flatMap
        (fun j => [RRQEv.dq (1 + j) ((content.drop (j * B)).take B),
                   RRQEv.ackRecv (1 + j)])
    ∧ content.length / B + 1 =
        (content.length + B - 1) / B + (if B ∣ content.length then 1 else 0)
    ∧ (B ∣ content.length →
        (content.drop (content.length / B * B)).take B = []) := by
  refine ⟨rrqTrace_eq B hB (content.length / B) content 1 rfl,
    ceil_count_eq content.length B hB, fun hdvd => ?_⟩
  rw [Nat.div_mul_cancel hdvd, List.drop_length, List.take_nil]

theorem rrq_block_progression_witness :
    0 < 2 ∧ ([1, 2, 3, 4, 5] : List Nat).length / 2 + 1 ≤ 65535 ∧
    (rrqTrace 2 1 [1, 2, 3, 4, 5] =
      (List.range (([1, 2, 3, 4, 5] : List Nat).length / 2 + 1)).flatMap
        (fun j => [RRQEv.dq (1 + j) ((([1, 2, 3, 4, 5] : List Nat).drop (j * 2)).take 2),
                   RRQEv.ackRecv (1 + j)])
    ∧ ([1, 2, 3, 4, 5] : List Nat).length / 2 + 1 =
        (([1, 2, 3, 4, 5] : List Nat).length + 2 - 1) / 2 +
          (if 2 ∣ ([1, 2, 3, 4, 5] : List Nat).length then 1 else 0)
    ∧ (2 ∣ ([1, 2, 3, 4, 5] : List Nat).length →
        (([1, 2, 3, 4, 5] : List Nat).drop
          (([1, 2, 3, 4, 5] : List Nat).length / 2 * 2)).take 2 = [])) :=
  ⟨by decide, by decide, rrq_block_progression [1, 2, 3, 4, 5] 2 (by decide) (by decide)⟩

theorem client_get_data_step_witness :
    1 ≤ 1 ∧ 1 < 65536 ∧
    clientGetLoop 3 (fun _ _ => true) 0 [RecvOutcome.pkt (Packet.dataPkt 1 [7])] =
      (if ([7] : List Nat).length < 512 then
        (GetEv.wroteAt ((1 - 1) * 512) [7] ::
          (if (fun _ _ => true : Nat → List Nat → Bool) ((1 - 1) * 512) [7] then
            [GetEv.sentAck 1] else []),
          GetOutcome.done)
      else
        (GetEv.wroteAt ((1 - 1) * 512) [7] ::
          ((if (fun _ _ => true : Nat → List Nat → Bool) ((1 - 1) * 512) [7] then
            [GetEv.sentAck 1] else []) ++
            (clientGetLoop 3 (fun _ _ => true) 0 []).1),
          (clientGetLoop 3 (fun _ _ => true) 0 []).2)) :=
  ⟨by decide, by decide,
    client_get_data_step 3 (fun _ _ => true) 0 1 [7] [] (by decide) (by decide)⟩

end Gotftp
